import Mathlib

/-!
Verification of the ThanhHoa HTTP router and middleware composition engine.

The repository carries several evolutions of its `Router` class.  Two are
modelled here, shallowly, each in its own namespace:

* `RR` — the regex-list router (`src/unnamed/part_011`): routes are kept in a
  list in registration order; `addRoute` compiles the route path into a regular
  expression (`:name` segments become `([^/]+)` capture groups, with an optional
  trailing slash); `handle` scans the list linearly and dispatches the first
  route whose method and pattern match, running the dispatch-time global
  middleware list followed by the route's own middleware.

* `V1` — the radix-store router (the first variant of
  `src/src/core/router.core.ts`, lines 1-219): `normalizePath` strips a trailing
  slash (except for the root `/`); `addRoute` inserts under the key
  `METHOD:normalizedPrefix + normalizedPath`; `handle` looks the normalized
  request path up and composes the middleware chain with `compose`.  The store
  itself is the external `radix3` library, not part of this repository; it is
  modelled from the spec's documented contract for exact keys: an insert
  overwrites an existing entry for the same key, and a lookup for a key returns
  the entry stored under it (parameter routes of `radix3` are outside the model;
  a looked-up entry carries no parameter bindings, matching
  `route.params || ...` evaluating to the empty object for exact-key hits).

Middleware and handlers are opaque functions in the source.  They are modelled
as computations threading a state consisting of the mutable request context and
an event trace, and possibly failing (a thrown error): this makes execution
order, short-circuiting and error propagation observable.  Paths are modelled
as their character lists, mirroring the JavaScript string operations.
-/

namespace ThanhHoa

/-- An HTTP response: status code and body. -/
structure Resp where
  status : Nat
  body : String
deriving DecidableEq

/-- A thrown error (an unhandled exception inside a handler or middleware). -/
abbrev Err := String

/-- The request context: method, pathname, and the mutable `params` field the
dispatcher populates. -/
structure Ctx where
  method : String
  path : List Char
  params : List (String × String)
deriving DecidableEq

/-- The state threaded through a dispatch: the (mutable, in the source) request
context, plus an event trace making middleware/handler execution observable. -/
structure St where
  ctx : Ctx
  trace : List String
deriving DecidableEq

/-- A computation over the request state: the model of a
`(context) => Promise of Response` call, which may also throw. -/
abbrev Comp := St → Except Err (St × Resp)

/-- A middleware `(context, next) => ...` : it receives the continuation for
the rest of the chain (the context lives in the threaded state). -/
abbrev Middleware := Comp → Comp

/-- An instrumented middleware: records `name:before`, runs the rest of the
chain, records `name:after`.  Used to observe execution order. -/
def logMw (name : String) : Middleware := fun next st =>
  match next { st with trace := st.trace ++ [name ++ ":before"] } with
  | .ok (st', r) => .ok ({ st' with trace := st'.trace ++ [name ++ ":after"] }, r)
  | .error e => .error e

/-- A short-circuiting middleware: records `name:stop` and returns its own
response without ever calling `next`. -/
def stopMw (name : String) (resp : Resp) : Middleware := fun _next st =>
  .ok ({ st with trace := st.trace ++ [name ++ ":stop"] }, resp)

/-- An instrumented terminal handler: records its name and returns `resp`. -/
def logHandler (name : String) (resp : Resp) : Comp := fun st =>
  .ok ({ st with trace := st.trace ++ [name] }, resp)

/-- A middleware that throws (models an unhandled exception). -/
def throwMw (e : Err) : Middleware := fun _next _st => .error e

namespace RR

/-- One token of a compiled route pattern: a literal character, or a named
parameter standing for one `([^/]+)` capture group. -/
inductive Tok where
  | lit (s : List Char)
  | param (name : String)
deriving DecidableEq

/-- JavaScript's regex word character class `[\w]`: ASCII letters, digits, `_`. -/
def isWordChar (c : Char) : Bool := c.isAlphanum || c = '_'

/-- Pattern compilation, modelling
`fullPath.replace(/:([\w]+)(?=\/|$)/g, ... ([^/]+))` from `addRoute`:
a `:` followed by a nonempty run of word characters that is itself followed by
`/` or the end of the string becomes a parameter token; every other character
is a literal.  `tokAux (some wacc) cs` is the scanning state after a `:` with
the word characters seen so far accumulated (reversed) in `wacc`; a failed
lookahead re-emits the `:` and its word run as literals (no later match can
begin inside a word run, since `:` is not a word character). -/
def tokAux : Option (List Char) → List Char → List Tok
  | none, [] => []
  | some wacc, [] =>
    if wacc = [] then [.lit [':']] else [.param (String.mk wacc.reverse)]
  | none, c :: rest =>
    if c = ':' then tokAux (some []) rest else .lit [c] :: tokAux none rest
  | some wacc, c :: rest =>
    if isWordChar c then tokAux (some (c :: wacc)) rest
    else if c = '/' ∧ ¬ wacc = [] then
      .param (String.mk wacc.reverse) :: .lit [c] :: tokAux none rest
    else if c = ':' then
      (.lit [':'] :: wacc.reverse.map (fun ch => .lit [ch])) ++ tokAux (some []) rest
    else
      (.lit [':'] :: wacc.reverse.map (fun ch => .lit [ch])) ++ .lit [c] :: tokAux none rest

/-- Compile a full route path into its pattern token list. -/
def tokenize (cs : List Char) : List Tok := tokAux none cs

/-- The ordered parameter names of a compiled pattern — the source pushes each
`:name` onto `paramNames` as the replacement visits it, left to right. -/
def paramNamesOf (toks : List Tok) : List String :=
  toks.filterMap fun t => match t with | .param n => some n | .lit _ => none

/-- Greedy matching of one `([^/]+)` capture group: try the longest candidate
length first and backtrack downwards, as the regex engine does; `next` matches
the remainder of the pattern against the remainder of the input. -/
def greedyAux (next : List Char → Option (List (List Char))) (rest : List Char) :
    Nat → Option (List (List Char))
  | 0 => none
  | k + 1 =>
    match next (rest.drop (k + 1)) with
    | some caps => some (rest.take (k + 1) :: caps)
    | none => greedyAux next rest k

/-- Match a compiled pattern (anchored `^ ... /?$`) against a request path,
returning the capture-group values in order.  The empty-pattern case encodes
the trailing `/?$`: the remaining input must be empty or a single `/`.  A
parameter consumes a nonempty run of non-`/` characters, greedily with
backtracking. -/
def matchToks : List Tok → List Char → Option (List (List Char))
  | [], rest => if rest = [] ∨ rest = ['/'] then some [] else none
  | .lit s :: ts, rest =>
    if s.isPrefixOf rest then matchToks ts (rest.drop s.length) else none
  | .param _ :: ts, rest =>
    greedyAux (fun cs => matchToks ts cs) rest ((rest.takeWhile (fun c => ¬ c = '/')).length)

/-- One registered route, mirroring `IRoute`: method, compiled pattern
(`pattern` in the source, the token list here), the ordered `paramNames`
collected during compilation, the route-local middleware, and the handler. -/
structure Route where
  method : String
  tokens : List Tok
  paramNames : List String
  middlewares : List Middleware
  handler : Comp

/-- The regex-list router state: `routes` in registration order, the global
middleware list, the route cache and the path prefix (the source's `prefix`
constructor argument; `prefix` is a Lean keyword, hence `pfx`).  The source
never inserts into `routeCache` (there is no `set` call), so it stays empty in
every reachable router; `handle` still consults it first, as the source does. -/
structure Router where
  pfx : List Char
  routes : List Route
  globalMiddlewares : List Middleware
  routeCache : List (String × Comp)

/-- `new Router(prefix)`: empty routes, middleware and cache. -/
def mkRouter (pfx : List Char) : Router := ⟨pfx, [], [], []⟩

/-- `addRoute(method, path, middlewares, handler)`: compiles
`this.prefix + path` into a pattern and appends the route. -/
def addRoute (r : Router) (method : String) (path : List Char)
    (middlewares : List Middleware) (handler : Comp) : Router :=
  let toks := tokenize (r.pfx ++ path)
  { r with routes := r.routes ++ [⟨method, toks, paramNamesOf toks, middlewares, handler⟩] }

/-- `use(middleware)`: appends to the global middleware list. -/
def use (r : Router) (m : Middleware) : Router :=
  { r with globalMiddlewares := r.globalMiddlewares ++ [m] }

/-- `group(prefix, callback)`: runs the callback against a fresh sub-router
whose prefix is `this.prefix + prefix`, then pushes the sub-router's routes
onto `this.routes` and the sub-router's global middlewares onto
`this.globalMiddlewares`. -/
def group (r : Router) (pfx : List Char) (callback : Router → Router) : Router :=
  let sub := callback (mkRouter (r.pfx ++ pfx))
  { r with routes := r.routes ++ sub.routes,
           globalMiddlewares := r.globalMiddlewares ++ sub.globalMiddlewares }

/-- The first route whose method equals the request method and whose pattern
matches the request path, together with its capture values — the body of the
`for (const route of this.routes)` loop in `handle`. -/
def findRoute (method : String) (path : List Char) :
    List Route → Option (Route × List (List Char))
  | [] => none
  | rt :: rest =>
    if rt.method = method then
      match matchToks rt.tokens path with
      | some caps => some (rt, caps)
      | none => findRoute method path rest
    else findRoute method path rest

/-- `params[name] = match[index + 1]` for each parameter name, in order. -/
def zipParams (names : List String) (caps : List (List Char)) :
    List (String × String) :=
  (names.zip caps).map fun p => (p.1, String.mk p.2)

/-- The source's `runMiddlewares(middlewares, index)`: run `middlewares[index]`
with the continuation for `index + 1`; past the end, run the route handler.
Modelled by structural recursion over the remaining list. -/
def runMiddlewares (handler : Comp) : List Middleware → Comp
  | [] => handler
  | m :: ms => m (runMiddlewares handler ms)

/-- `handle(context)`: consult the (always empty) route cache, scan the route
list for the first match, assign the extracted parameter map onto the context,
and run the dispatch-time global middleware followed by the route's own
middleware around the handler; `null` (here `none`) when nothing matches.  The
router state is returned alongside the outcome: every path of the source method
leaves `this` untouched, which the returned first component makes explicit. -/
def handle (r : Router) (st : St) : Router × Except Err (St × Option Resp) :=
  match r.routeCache.lookup (st.ctx.method ++ ":" ++ String.mk st.ctx.path) with
  | some cached => (r, (cached st).map fun p => (p.1, some p.2))
  | none =>
    match findRoute st.ctx.method st.ctx.path r.routes with
    | none => (r, .ok (st, none))
    | some (rt, caps) =>
      let st' := { st with ctx := { st.ctx with params := zipParams rt.paramNames caps } }
      (r, (runMiddlewares rt.handler (r.globalMiddlewares ++ rt.middlewares) st').map
        fun p => (p.1, some p.2))

/-- Well-formedness of a route record: its `paramNames` are the ones compiled
from its pattern.  Every route built by `addRoute` satisfies this. -/
def RouteWF (rt : Route) : Prop := rt.paramNames = paramNamesOf rt.tokens

/-- A router all of whose routes are well-formed. -/
def WF (r : Router) : Prop := ∀ rt ∈ r.routes, RouteWF rt

end RR

namespace V1

/-- The value stored in the radix store for one route: the route-local
middleware list and the handler (`{ handler, middlewares }` in `addRoute`). -/
structure RouteEntry where
  middlewares : List Middleware
  handler : Comp

/-- The radix-store router state.  `radixRouter` models the external `radix3`
store for exact keys (see the file header): a total function from keys to
optional entries. -/
structure Router where
  pfx : List Char
  radixRouter : List Char → Option RouteEntry
  globalMiddlewares : List Middleware

/-- `new Router(prefix)`: an empty store. -/
def mkRouter (pfx : List Char) : Router := ⟨pfx, fun _ => none, []⟩

/-- `normalizePath`: the root `/` is returned unchanged; otherwise one
trailing `/` is stripped (`path.endsWith('/') ? path.slice(0, -1) : path`). -/
def normalizePath (p : List Char) : List Char :=
  if p = ['/'] then p
  else if p.getLast? = some '/' then p.dropLast else p

/-- The path normalization at the top of `addRoute`:
`path ? '/' + path.replace(/^\/+/, '') : '/'` — an empty path becomes `/`,
otherwise a single `/` replaces any run of leading slashes. -/
def normalizeInput (p : List Char) : List Char :=
  if p = [] then ['/'] else '/' :: p.dropWhile (fun c => c = '/')

/-- The key `addRoute` inserts under:
`method + ":" + normalizePath(prefix) + normalizePath(normalizedPath)`. -/
def routeKey (pfx : List Char) (method : String) (path : List Char) : List Char :=
  method.toList ++ ':' :: (normalizePath pfx ++ normalizePath (normalizeInput path))

/-- The key `handle` looks up: `method + ":" + normalizePath(url.pathname)`. -/
def lookupKey (method : String) (path : List Char) : List Char :=
  method.toList ++ ':' :: normalizePath path

/-- `radix3`'s insert, modelled from the spec's documented contract: the same
key inserted twice is silently overwritten (last write wins). -/
def insert (store : List Char → Option RouteEntry) (k : List Char)
    (e : RouteEntry) : List Char → Option RouteEntry :=
  fun k' => if k' = k then some e else store k'

/-- `addRoute(method, path, handler, middlewares)`. -/
def addRoute (r : Router) (method : String) (path : List Char)
    (handler : Comp) (middlewares : List Middleware) : Router :=
  { r with radixRouter := insert r.radixRouter (routeKey r.pfx method path) ⟨middlewares, handler⟩ }

/-- `use(middleware)`. -/
def use (r : Router) (m : Middleware) : Router :=
  { r with globalMiddlewares := r.globalMiddlewares ++ [m] }

/-- The `dispatch(index)` closure inside `compose`: run `middlewares[index]`
with the continuation for `index + 1`; at the end of the array, `next()`.
Modelled by structural recursion over the remaining list (`dispatch i`
corresponds to the suffix of the array from `i`). -/
def dispatchFrom (next : Comp) : List Middleware → Comp
  | [] => next
  | m :: ms => m (dispatchFrom next ms)

/-- `compose(middlewares)`: one callable wrapping `next` in the whole chain. -/
def compose (mws : List Middleware) (next : Comp) : Comp := dispatchFrom next mws

/-- `handle(context)`: look the normalized request path up; on a hit assign
`route.params || ...` (empty for an exact-key hit in this model) and run
`compose([...globalMiddlewares, ...route.middlewares])` around the handler; on
a miss return the fixed 404 response.  As in `RR.handle`, the router state is
returned unchanged alongside the outcome. -/
def handle (r : Router) (st : St) : Router × Except Err (St × Resp) :=
  match r.radixRouter (lookupKey st.ctx.method st.ctx.path) with
  | some e =>
    let st' := { st with ctx := { st.ctx with params := [] } }
    (r, compose (r.globalMiddlewares ++ e.middlewares) e.handler st')
  | none => (r, .ok (st, ⟨404, "Not Found"⟩))

end V1

/-! ### Concrete fixtures used by the claim theorems and witnesses -/

/-- C1: a route registered first, then `use(logMw M)` afterwards. -/
def c1BaseRouter : RR.Router :=
  RR.addRoute (RR.mkRouter []) "GET" "/a".toList [] (logHandler "H" ⟨200, "a"⟩)

/-- C1: the router after the late `use` call. -/
def c1Router : RR.Router := RR.use c1BaseRouter (logMw "M")

/-- C1: the single route record `c1BaseRouter` holds. -/
def c1Route : RR.Route :=
  ⟨"GET", RR.tokenize "/a".toList, RR.paramNamesOf (RR.tokenize "/a".toList), [],
    logHandler "H" ⟨200, "a"⟩⟩

/-- C2: `GET /users/:id` registered before `GET /users/new`. -/
def c2ParamFirst : RR.Router :=
  RR.addRoute
    (RR.addRoute (RR.mkRouter []) "GET" "/users/:id".toList [] (logHandler "Hid" ⟨200, "id"⟩))
    "GET" "/users/new".toList [] (logHandler "Hnew" ⟨200, "new"⟩)

/-- C2: `GET /users/new` registered before `GET /users/:id`. -/
def c2LitFirst : RR.Router :=
  RR.addRoute
    (RR.addRoute (RR.mkRouter []) "GET" "/users/new".toList [] (logHandler "Hnew" ⟨200, "new"⟩))
    "GET" "/users/:id".toList [] (logHandler "Hid" ⟨200, "id"⟩)

/-- C3: a route with middleware list `[A, B]` and handler `H`. -/
def c3Router : RR.Router :=
  RR.addRoute (RR.mkRouter []) "GET" "/mw".toList [logMw "A", logMw "B"]
    (logHandler "H" ⟨200, "h"⟩)

/-- C3: the same route but with `A` short-circuiting (never calling `next`). -/
def c3StopRouter : RR.Router :=
  RR.addRoute (RR.mkRouter []) "GET" "/mw".toList
    [stopMw "A" ⟨403, "stopped"⟩, logMw "B"] (logHandler "H" ⟨200, "h"⟩)

/-- C3: the radix-store variant of the `[A, B]` route. -/
def c3RouterV : V1.Router :=
  V1.addRoute (V1.mkRouter []) "GET" "/mw".toList (logHandler "H" ⟨200, "h"⟩)
    [logMw "A", logMw "B"]

/-- C5: the two-parameter route of the claim. -/
def c5Router : RR.Router :=
  RR.addRoute (RR.mkRouter []) "GET" "/posts/:postId/comments/:commentId".toList []
    (logHandler "H" ⟨200, "ok"⟩)

/-- C6: a router with a global middleware and one route, none matching `/nope`. -/
def c6Router : RR.Router :=
  RR.use (RR.addRoute (RR.mkRouter []) "GET" "/a".toList [logMw "L"]
    (logHandler "H" ⟨200, "a"⟩)) (logMw "M")

/-- C6: the radix-store variant. -/
def c6RouterV : V1.Router :=
  V1.use (V1.addRoute (V1.mkRouter []) "GET" "/a".toList (logHandler "H" ⟨200, "a"⟩)
    [logMw "L"]) (logMw "M")

/-- C7: the same `(method, path)` registered twice with different handlers. -/
def c7Router : RR.Router :=
  RR.addRoute
    (RR.addRoute (RR.mkRouter []) "GET" "/dup".toList [] (logHandler "H1" ⟨200, "one"⟩))
    "GET" "/dup".toList [] (logHandler "H2" ⟨200, "two"⟩)

/-- C7 (amended): the duplicate-key router over arbitrary handlers. -/
def c7RouterOf (h1 h2 : Comp) : RR.Router :=
  RR.addRoute (RR.addRoute (RR.mkRouter []) "GET" "/dup".toList [] h1)
    "GET" "/dup".toList [] h2

/-- C8: a route `/a` registered on the parent, then a group `/g` whose
configure callback adds a middleware via `use` and a route `/b`. -/
def c8Router : RR.Router :=
  RR.group (RR.addRoute (RR.mkRouter []) "GET" "/a".toList [] (logHandler "HA" ⟨200, "a"⟩))
    "/g".toList
    (fun sub => RR.addRoute (RR.use sub (logMw "M")) "GET" "/b".toList []
      (logHandler "HB" ⟨200, "b"⟩))

/-- C10: a two-parameter route used to witness the params-replacement theorem. -/
def c10Router : RR.Router :=
  RR.addRoute (RR.mkRouter []) "GET" "/posts/:postId/comments/:commentId".toList []
    (logHandler "H" ⟨200, "ok"⟩)

/-- C10: the route record `c10Router` holds. -/
def c10Route : RR.Route :=
  ⟨"GET", RR.tokenize "/posts/:postId/comments/:commentId".toList,
    RR.paramNamesOf (RR.tokenize "/posts/:postId/comments/:commentId".toList), [],
    logHandler "H" ⟨200, "ok"⟩⟩

/-! ### Supporting lemmas -/

theorem RR.paramNamesOf_lit (s : List Char) (ts : List RR.Tok) :
    RR.paramNamesOf (.lit s :: ts) = RR.paramNamesOf ts := rfl

theorem RR.paramNamesOf_param (n : String) (ts : List RR.Tok) :
    RR.paramNamesOf (.param n :: ts) = n :: RR.paramNamesOf ts := rfl

theorem RR.greedyAux_len {next : List Char → Option (List (List Char))} {n : Nat}
    (hn : ∀ cs caps, next cs = some caps → caps.length = n) :
    ∀ (rest : List Char) (k : Nat) (caps : List (List Char)),
      RR.greedyAux next rest k = some caps → caps.length = n + 1 := by
  intro rest k
  induction k with
  | zero => intro caps h; simp [RR.greedyAux] at h
  | succ k ih =>
    intro caps h
    rw [RR.greedyAux] at h
    rcases hnext : next (rest.drop (k + 1)) with _ | caps'
    · rw [hnext] at h
      exact ih caps h
    · rw [hnext] at h
      cases h
      simp [hn _ _ hnext]

/-- A successful match yields exactly one capture per parameter token. -/
theorem RR.matchToks_len :
    ∀ (ts : List RR.Tok) (cs : List Char) (caps : List (List Char)),
      RR.matchToks ts cs = some caps → caps.length = (RR.paramNamesOf ts).length := by
  intro ts
  induction ts with
  | nil =>
    intro cs caps h
    rw [RR.matchToks] at h
    split at h
    · cases h; rfl
    · exact absurd h (by simp)
  | cons t ts ih =>
    intro cs caps h
    cases t with
    | lit s =>
      rw [RR.matchToks] at h
      split at h
      · rw [RR.paramNamesOf_lit]
        exact ih _ _ h
      · exact absurd h (by simp)
    | param n =>
      rw [RR.matchToks] at h
      rw [RR.paramNamesOf_param]
      simpa using RR.greedyAux_len (fun cs' caps' h' => ih cs' caps' h') cs _ caps h

/-- `findRoute` returns a member of the list together with a successful match
of its pattern. -/
theorem RR.findRoute_eq_some {method : String} {path : List Char} :
    ∀ {routes : List RR.Route} {rt : RR.Route} {caps : List (List Char)},
      RR.findRoute method path routes = some (rt, caps) →
      rt ∈ routes ∧ RR.matchToks rt.tokens path = some caps := by
  intro routes
  induction routes with
  | nil => intro rt caps h; simp [RR.findRoute] at h
  | cons r rest ih =>
    intro rt caps h
    rw [RR.findRoute] at h
    split at h
    · rcases hm : RR.matchToks r.tokens path with _ | caps'
      · rw [hm] at h
        rcases ih h with ⟨hmem, hmatch⟩
        exact ⟨List.mem_cons_of_mem _ hmem, hmatch⟩
      · rw [hm] at h
        cases h
        exact ⟨List.mem_cons_self _ _, hm⟩
    · rcases ih h with ⟨hmem, hmatch⟩
      exact ⟨List.mem_cons_of_mem _ hmem, hmatch⟩

theorem RR.wf_mkRouter (pfx : List Char) : RR.WF (RR.mkRouter pfx) := by
  intro rt h
  simp [RR.mkRouter] at h

theorem RR.wf_addRoute {r : RR.Router} (hr : RR.WF r) (method : String)
    (path : List Char) (mws : List Middleware) (h : Comp) :
    RR.WF (RR.addRoute r method path mws h) := by
  intro rt hmem
  simp only [RR.addRoute, List.mem_append, List.mem_singleton] at hmem
  rcases hmem with hmem | hmem
  · exact hr rt hmem
  · subst hmem; rfl

theorem RR.wf_use {r : RR.Router} (hr : RR.WF r) (m : Middleware) :
    RR.WF (RR.use r m) := hr

theorem RR.wf_group {r : RR.Router} (hr : RR.WF r) (pfx : List Char)
    (callback : RR.Router → RR.Router)
    (hcb : RR.WF (callback (RR.mkRouter (r.pfx ++ pfx)))) :
    RR.WF (RR.group r pfx callback) := by
  intro rt hmem
  simp only [RR.group, List.mem_append] at hmem
  rcases hmem with hmem | hmem
  · exact hr rt hmem
  · exact hcb rt hmem

/-! ### Claim theorems -/

/-- Claim C3 (confirmed): for a route with middleware list `[A, B]` and handler
`H`, a matching request observes the order `A:before, B:before, H, B:after,
A:after` — in the regex-list router's `handle`/`runMiddlewares` and in the
radix-store router's `handle`/`compose` alike — and if `A` returns without
calling `next()`, neither `B` nor `H` ever executes (the trace records only
`A:stop` and the response is `A`'s). -/
theorem middleware_order_and_short_circuit :
    (RR.handle c3Router ⟨⟨"GET", "/mw".toList, []⟩, []⟩).2 =
      .ok (⟨⟨"GET", "/mw".toList, []⟩,
        ["A:before", "B:before", "H", "B:after", "A:after"]⟩, some ⟨200, "h"⟩)
    ∧ (RR.handle c3StopRouter ⟨⟨"GET", "/mw".toList, []⟩, []⟩).2 =
      .ok (⟨⟨"GET", "/mw".toList, []⟩, ["A:stop"]⟩, some ⟨403, "stopped"⟩)
    ∧ (V1.handle c3RouterV ⟨⟨"GET", "/mw".toList, []⟩, []⟩).2 =
      .ok (⟨⟨"GET", "/mw".toList, []⟩,
        ["A:before", "B:before", "H", "B:after", "A:after"]⟩, ⟨200, "h"⟩) := by
  exact ⟨rfl, rfl, rfl⟩

/-- Claim C5 (confirmed): for the route `GET /posts/:postId/comments/:commentId`
and request path `/posts/42/comments/7`, the context's parameter map becomes
exactly `postId = 42, commentId = 7` (a prior stale binding is discarded), and
the compiled `paramNames` list is `[postId, commentId]`, in path order. -/
theorem param_extraction_correct :
    (RR.handle c5Router
        ⟨⟨"GET", "/posts/42/comments/7".toList, [("stale", "v")]⟩, []⟩).2 =
      .ok (⟨⟨"GET", "/posts/42/comments/7".toList,
        [("postId", "42"), ("commentId", "7")]⟩, ["H"]⟩, some ⟨200, "ok"⟩)
    ∧ c5Router.routes.map RR.Route.paramNames = [["postId", "commentId"]] := by
  exact ⟨rfl, rfl⟩

/-- Claim C2, counterexample: with `GET /users/:id` registered before
`GET /users/new`, the request `/users/new` is resolved by the parameter route —
its handler runs and `id` is bound to `new` — so the literal route does *not*
take precedence regardless of registration order. -/
theorem param_route_shadows_later_static_route :
    (RR.handle c2ParamFirst ⟨⟨"GET", "/users/new".toList, []⟩, []⟩).2 =
      .ok (⟨⟨"GET", "/users/new".toList, [("id", "new")]⟩, ["Hid"]⟩,
        some ⟨200, "id"⟩) := by
  exact rfl

/-- Claim C2, amended: the regex-list router resolves by registration order
(first matching route wins).  The literal route `GET /users/new` beats
`GET /users/:id` exactly when it was registered first — then its handler runs
and no parameter is bound; registered second, the parameter route wins and
binds `id = new`. -/
theorem route_precedence_is_registration_order :
    (RR.handle c2LitFirst ⟨⟨"GET", "/users/new".toList, []⟩, []⟩).2 =
      .ok (⟨⟨"GET", "/users/new".toList, []⟩, ["Hnew"]⟩, some ⟨200, "new"⟩)
    ∧ (RR.handle c2ParamFirst ⟨⟨"GET", "/users/new".toList, []⟩, []⟩).2 =
      .ok (⟨⟨"GET", "/users/new".toList, [("id", "new")]⟩, ["Hid"]⟩,
        some ⟨200, "id"⟩) := by
  exact ⟨rfl, rfl⟩

/-- Claim C7, counterexample: registering `GET /dup` twice, a request for
`/dup` is dispatched to the *first* registration (`H1`, body `one`), not the
last — the regex-list router scans in registration order. -/
theorem duplicate_key_first_registration_wins :
    (RR.handle c7Router ⟨⟨"GET", "/dup".toList, []⟩, []⟩).2 =
      .ok (⟨⟨"GET", "/dup".toList, []⟩, ["H1"]⟩, some ⟨200, "one"⟩) := by
  exact rfl

/-- Claim C7, amended: which duplicate wins depends on the router variant.  In
the regex-list router the outcome of `handle` is a function of the *first*
registration's handler alone (`h2` does not occur on the right-hand side, so
the later registration's handler is never invoked); in the radix-store router
the second insert overwrites the first, so the *last* registration is the one
indexed. -/
theorem duplicate_key_reachability :
    (∀ (h1 h2 : Comp) (ps : List (String × String)) (tr : List String),
      (RR.handle (c7RouterOf h1 h2) ⟨⟨"GET", "/dup".toList, ps⟩, tr⟩).2 =
        (h1 ⟨⟨"GET", "/dup".toList, []⟩, tr⟩).map (fun p => (p.1, some p.2)))
    ∧ (∀ (v : V1.Router) (m : String) (path : List Char) (h1 h2 : Comp)
        (mws1 mws2 : List Middleware),
      (V1.addRoute (V1.addRoute v m path h1 mws1) m path h2 mws2).radixRouter
          (V1.routeKey v.pfx m path) = some ⟨mws2, h2⟩) := by
  constructor
  · intro h1 h2 ps tr
    rfl
  · intro v m path h1 h2 mws1 mws2
    simp [V1.addRoute, V1.insert]

/-- Claim C8, counterexample: after `group('/g', sub => sub.use(M); sub.get('/b', HB))`
on a parent that already had `GET /a`, a request for `/a` — a route of the
parent registered *outside* the group — runs the group's middleware `M`: its
effective chain did not stay unchanged. -/
theorem group_middleware_leaks_to_outside_route :
    (RR.handle c8Router ⟨⟨"GET", "/a".toList, []⟩, []⟩).2 =
      .ok (⟨⟨"GET", "/a".toList, []⟩, ["M:before", "HA", "M:after"]⟩,
        some ⟨200, "a"⟩) := by
  exact rfl

/-- Claim C8, amended: `group(prefix, configure)` splices the sub-router's
routes (compiled under `parentPrefix ++ prefix`) onto the parent's route list
and appends the sub-router's global middleware onto the *parent's global*
middleware list; consequently the group's `use` middleware runs for every route
of the parent at dispatch time — the group's own route `/g/b` observes
`M:before, HB, M:after`, and so does the outside route `/a`. -/
theorem group_splices_routes_and_middleware :
    (∀ (r : RR.Router) (pfx : List Char) (cb : RR.Router → RR.Router),
      (RR.group r pfx cb).routes =
          r.routes ++ (cb (RR.mkRouter (r.pfx ++ pfx))).routes
        ∧ (RR.group r pfx cb).globalMiddlewares =
          r.globalMiddlewares ++ (cb (RR.mkRouter (r.pfx ++ pfx))).globalMiddlewares)
    ∧ (RR.handle c8Router ⟨⟨"GET", "/g/b".toList, []⟩, []⟩).2 =
      .ok (⟨⟨"GET", "/g/b".toList, []⟩, ["M:before", "HB", "M:after"]⟩,
        some ⟨200, "b"⟩) := by
  exact ⟨fun r pfx cb => ⟨rfl, rfl⟩, rfl⟩

/-- Claim C9 (confirmed): dispatch never mutates router state.  Both `handle`
implementations return the router component unchanged on every path — cache
hit, route hit, miss — including when a middleware or the handler throws
(middleware and handlers are arbitrary in the router, so the quantification
covers erroring chains, whose error propagates in the second component). -/
theorem handle_preserves_router_state :
    (∀ (r : RR.Router) (st : St), (RR.handle r st).1 = r)
    ∧ (∀ (v : V1.Router) (st : St), (V1.handle v st).1 = v) := by
  constructor
  · intro r st
    unfold RR.handle
    split
    · rfl
    · split <;> rfl
  · intro v st
    unfold V1.handle
    split <;> rfl

/-- Claim C1, counterexample: a route registered *before* a `use(M)` call does
run `M` — dispatching `/a` on a router where `GET /a` was registered first and
`use(logMw M)` came afterwards produces the trace `M:before, H, M:after`,
refuting the snapshot semantics the claim states. -/
theorem use_after_registration_runs_on_earlier_route :
    (RR.handle c1Router ⟨⟨"GET", "/a".toList, []⟩, []⟩).2 =
      .ok (⟨⟨"GET", "/a".toList, []⟩, ["M:before", "H", "M:after"]⟩,
        some ⟨200, "a"⟩) := by
  exact rfl

/-- Claim C1, amended: global middleware is applied at dispatch time, not
snapshotted at registration time.  For any router `r`, any middleware `M` added
by `use` *after* `r`'s routes were registered, and any request matching one of
those routes, the executed chain is the dispatch-time global list — which
includes `M` — followed by the route's own middleware. -/
theorem global_middleware_applied_at_dispatch (r : RR.Router) (M : Middleware)
    (st : St) (rt : RR.Route) (caps : List (List Char))
    (hc : r.routeCache = [])
    (hf : RR.findRoute st.ctx.method st.ctx.path r.routes = some (rt, caps)) :
    (RR.handle (RR.use r M) st).2 =
      (RR.runMiddlewares rt.handler ((r.globalMiddlewares ++ [M]) ++ rt.middlewares)
        { st with ctx := { st.ctx with params := RR.zipParams rt.paramNames caps } }).map
        (fun p => (p.1, some p.2)) := by
  simp only [RR.handle, RR.use, hc, List.lookup_nil, hf]

/-- Witness for `global_middleware_applied_at_dispatch` at a concrete router:
`GET /a` registered first, then `use(logMw M)`. -/
theorem global_middleware_applied_at_dispatch_witness :
    (c1BaseRouter.routeCache = [] ∧
      RR.findRoute "GET" "/a".toList c1BaseRouter.routes = some (c1Route, []))
    ∧ (RR.handle (RR.use c1BaseRouter (logMw "M")) ⟨⟨"GET", "/a".toList, []⟩, []⟩).2 =
      (RR.runMiddlewares c1Route.handler
        ((c1BaseRouter.globalMiddlewares ++ [logMw "M"]) ++ c1Route.middlewares)
        ⟨⟨"GET", "/a".toList, RR.zipParams c1Route.paramNames []⟩, []⟩).map
        (fun p => (p.1, some p.2)) :=
  ⟨⟨rfl, rfl⟩, global_middleware_applied_at_dispatch c1BaseRouter (logMw "M")
    ⟨⟨"GET", "/a".toList, []⟩, []⟩ c1Route [] rfl rfl⟩

/-- Claim C6 (confirmed): a request matching no registered route yields the
not-found outcome — `null`/`none` from the regex-list router, the fixed
404 response from the radix-store router — with the state returned untouched:
the trace is unchanged, so no middleware (global or route-local) ran. -/
theorem miss_returns_not_found_without_middleware
    (r : RR.Router) (st : St) (hc : r.routeCache = [])
    (hmiss : RR.findRoute st.ctx.method st.ctx.path r.routes = none)
    (v : V1.Router) (st2 : St)
    (hmiss2 : v.radixRouter (V1.lookupKey st2.ctx.method st2.ctx.path) = none) :
    (RR.handle r st).2 = .ok (st, none)
    ∧ (V1.handle v st2).2 = .ok (st2, ⟨404, "Not Found"⟩) := by
  constructor
  · simp only [RR.handle, hc, List.lookup_nil, hmiss]
  · simp only [V1.handle, hmiss2]

/-- Witness for `miss_returns_not_found_without_middleware`: routers with a
global middleware and a route `GET /a`, queried at `/nope`. -/
theorem miss_returns_not_found_without_middleware_witness :
    (c6Router.routeCache = [] ∧
      RR.findRoute "GET" "/nope".toList c6Router.routes = none ∧
      c6RouterV.radixRouter (V1.lookupKey "GET" "/nope".toList) = none)
    ∧ ((RR.handle c6Router ⟨⟨"GET", "/nope".toList, []⟩, []⟩).2 =
        .ok (⟨⟨"GET", "/nope".toList, []⟩, []⟩, none)
      ∧ (V1.handle c6RouterV ⟨⟨"GET", "/nope".toList, []⟩, []⟩).2 =
        .ok (⟨⟨"GET", "/nope".toList, []⟩, []⟩, ⟨404, "Not Found"⟩)) :=
  ⟨⟨rfl, rfl, rfl⟩, miss_returns_not_found_without_middleware c6Router
    ⟨⟨"GET", "/nope".toList, []⟩, []⟩ rfl rfl c6RouterV
    ⟨⟨"GET", "/nope".toList, []⟩, []⟩ rfl⟩

/-- Claim C10 (confirmed): on a hit, `handle` replaces the context's `params`
field wholesale with the matched route's bindings — the chain runs on a context
whose `params` are exactly `zipParams paramNames captures`, independent of
whatever `params` held before dispatch; the keys of that map are exactly the
route's `paramNames` (in order), and a parameter-free route gets the empty
map. -/
theorem params_replaced_wholesale (r : RR.Router) (hwf : RR.WF r)
    (hc : r.routeCache = []) (m : String) (p : List Char)
    (ps : List (String × String)) (tr : List String)
    (rt : RR.Route) (caps : List (List Char))
    (hf : RR.findRoute m p r.routes = some (rt, caps)) :
    (RR.handle r ⟨⟨m, p, ps⟩, tr⟩).2 =
      (RR.runMiddlewares rt.handler (r.globalMiddlewares ++ rt.middlewares)
        ⟨⟨m, p, RR.zipParams rt.paramNames caps⟩, tr⟩).map (fun q => (q.1, some q.2))
    ∧ (RR.zipParams rt.paramNames caps).map Prod.fst = rt.paramNames
    ∧ (rt.paramNames = [] → RR.zipParams rt.paramNames caps = []) := by
  obtain ⟨hmem, hmatch⟩ := RR.findRoute_eq_some hf
  have hlen : rt.paramNames.length ≤ caps.length := by
    rw [hwf rt hmem]
    exact le_of_eq (RR.matchToks_len _ _ _ hmatch).symm
  refine ⟨?_, ?_, ?_⟩
  · simp only [RR.handle, hc, List.lookup_nil, hf]
  · have hfst : (Prod.fst ∘ fun q : String × List Char => (q.1, String.mk q.2)) =
        (Prod.fst : String × List Char → String) := rfl
    rw [RR.zipParams, List.map_map, hfst, List.map_fst_zip _ _ hlen]
  · intro hnil
    simp [RR.zipParams, hnil]

/-- Witness for `params_replaced_wholesale` at the two-parameter route, with a
stale binding in the context before dispatch. -/
theorem params_replaced_wholesale_witness :
    (c10Router.routeCache = [] ∧
      RR.findRoute "GET" "/posts/42/comments/7".toList c10Router.routes =
        some (c10Route, ["42".toList, "7".toList]))
    ∧ ((RR.handle c10Router
          ⟨⟨"GET", "/posts/42/comments/7".toList, [("old", "x")]⟩, []⟩).2 =
        (RR.runMiddlewares c10Route.handler
          (c10Router.globalMiddlewares ++ c10Route.middlewares)
          ⟨⟨"GET", "/posts/42/comments/7".toList,
            RR.zipParams c10Route.paramNames ["42".toList, "7".toList]⟩, []⟩).map
          (fun q => (q.1, some q.2))
      ∧ (RR.zipParams c10Route.paramNames ["42".toList, "7".toList]).map Prod.fst =
        c10Route.paramNames
      ∧ (c10Route.paramNames = [] →
        RR.zipParams c10Route.paramNames ["42".toList, "7".toList] = [])) :=
  ⟨⟨rfl, rfl⟩, params_replaced_wholesale c10Router
    (RR.wf_addRoute (RR.wf_mkRouter []) _ _ _ _) rfl "GET"
    "/posts/42/comments/7".toList [("old", "x")] [] c10Route
    ["42".toList, "7".toList] rfl⟩

/-- Claim C4 (confirmed, radix-store router): for a well-formed non-root path
`/q` (nonempty, no leading double slash, no trailing slash), a route registered
at `/q` is indexed under the same key the dispatcher computes for a request
`/q/`, and a route registered at `/q/` is indexed under the key computed for a
request `/q` — both resolve to the registered entry — while the root `/` is
left canonical by `normalizePath` (never collapsed to the empty string). -/
theorem trailing_slash_normalization (v : V1.Router) (hpfx : v.pfx = [])
    (m : String) (q : List Char) (hq : q ≠ [])
    (hhead : q.head? ≠ some '/') (hlast : ('/' :: q).getLast? ≠ some '/')
    (h : Comp) (mws : List Middleware) :
    ((V1.addRoute v m ('/' :: q) h mws).radixRouter
        (V1.lookupKey m (('/' :: q) ++ ['/'])) = some ⟨mws, h⟩)
    ∧ ((V1.addRoute v m (('/' :: q) ++ ['/']) h mws).radixRouter
        (V1.lookupKey m ('/' :: q)) = some ⟨mws, h⟩)
    ∧ V1.normalizePath ['/'] = ['/'] := by
  obtain ⟨a, t, rfl⟩ : ∃ a t, q = a :: t := by
    cases q with
    | nil => exact absurd rfl hq
    | cons a t => exact ⟨a, t, rfl⟩
  have ha : ¬ a = '/' := by
    intro hcon
    exact hhead (by simp [hcon])
  have hnormIn : V1.normalizeInput ('/' :: a :: t) = '/' :: a :: t := by
    simp [V1.normalizeInput, List.dropWhile_cons, ha]
  have hnormIn2 : V1.normalizeInput (('/' :: a :: t) ++ ['/']) =
      ('/' :: a :: t) ++ ['/'] := by
    simp [V1.normalizeInput, List.dropWhile_cons, ha]
  have hne1 : ¬ ('/' :: a :: t) = ['/'] := by simp
  have hnorm1 : V1.normalizePath ('/' :: a :: t) = '/' :: a :: t := by
    rw [V1.normalizePath, if_neg hne1, if_neg hlast]
  have hne2 : ¬ (('/' :: a :: t) ++ ['/']) = ['/'] := by simp
  have hlast2 : (('/' :: a :: t) ++ ['/']).getLast? = some '/' :=
    List.getLast?_concat _
  have hnorm2 : V1.normalizePath (('/' :: a :: t) ++ ['/']) = '/' :: a :: t := by
    rw [V1.normalizePath, if_neg hne2, if_pos hlast2, List.dropLast_concat]
  have hkey1 : V1.lookupKey m (('/' :: a :: t) ++ ['/']) =
      V1.routeKey v.pfx m ('/' :: a :: t) := by
    rw [V1.lookupKey, V1.routeKey, hpfx, hnorm2, hnormIn, hnorm1]
    simp [V1.normalizePath]
  have hkey2 : V1.lookupKey m ('/' :: a :: t) =
      V1.routeKey v.pfx m (('/' :: a :: t) ++ ['/']) := by
    rw [V1.lookupKey, V1.routeKey, hpfx, hnorm1, hnormIn2, hnorm2]
    simp [V1.normalizePath]
  refine ⟨?_, ?_, rfl⟩
  · simp only [V1.addRoute, V1.insert]
    rw [if_pos hkey1]
  · simp only [V1.addRoute, V1.insert]
    rw [if_pos hkey2]

/-- Witness for `trailing_slash_normalization` at `GET /users`. -/
theorem trailing_slash_normalization_witness :
    ("users".toList ≠ [] ∧ ("users".toList).head? ≠ some '/' ∧
      ('/' :: "users".toList).getLast? ≠ some '/')
    ∧ (((V1.addRoute (V1.mkRouter []) "GET" ('/' :: "users".toList)
          (logHandler "H" ⟨200, "u"⟩) []).radixRouter
          (V1.lookupKey "GET" (('/' :: "users".toList) ++ ['/'])) =
        some ⟨[], logHandler "H" ⟨200, "u"⟩⟩)
      ∧ ((V1.addRoute (V1.mkRouter []) "GET" (('/' :: "users".toList) ++ ['/'])
          (logHandler "H" ⟨200, "u"⟩) []).radixRouter
          (V1.lookupKey "GET" ('/' :: "users".toList)) =
        some ⟨[], logHandler "H" ⟨200, "u"⟩⟩)
      ∧ V1.normalizePath ['/'] = ['/']) :=
  ⟨⟨by decide, by decide, by decide⟩,
    trailing_slash_normalization (V1.mkRouter []) rfl "GET" "users".toList
      (by decide) (by decide) (by decide) (logHandler "H" ⟨200, "u"⟩) []⟩

end ThanhHoa
